import Mathlib

/-!
Verification of the platform socket layer (`src/library/std/src/sys/switch/net.rs`).

The file shallowly embeds the algorithmic core of that source file:
the bounded-connect poll loop (`Socket::connect_timeout`), the timeout
option codec (`Socket::set_timeout` / `Socket::timeout`), the resolver
error translation (`cvt_gai`), and the interrupt-retry discipline of
`Socket::accept` versus `Socket::recv_with_flags`.

Machine integers are modelled as `Nat`/`Int` with explicit saturation.
Durations are modelled as total nanosecond counts (`Nat`), matching
Rust `Duration`'s accessors: `as_secs` is division by 10^9,
`subsec_nanos` is the remainder, `subsec_micros` divides that by 1000.
Syscall effects are scripted: each model function consumes a script of
syscall outcomes and produces an explicit event trace plus a result.
-/

namespace SwitchNet

/-- The raw OS error code for an interrupted syscall (`EINTR`). -/
def EINTR : Int := 4

/-- The raw OS error code for a connect in progress (`libc::EINPROGRESS`). -/
def EINPROGRESS : Int := 115

/-- The designated system-level resolver code (`libc::EAI_SYSTEM`). -/
def EAI_SYSTEM : Int := -11

/-- Largest value of the platform `u64` type. -/
def u64Max : Nat := 18446744073709551615

/-- Largest value of the platform `c_int` type (`c_int::MAX`). -/
def cIntMax : Nat := 2147483647

/-- Largest value of the platform `libc::time_t` type (a signed 64-bit integer). -/
def time_t_MAX : Nat := 9223372036854775807

/-- `u64::saturating_mul`. -/
def satMul64 (a b : Nat) : Nat := min (a * b) u64Max

/-- `u64::saturating_add`. -/
def satAdd64 (a b : Nat) : Nat := min (a + b) u64Max

/-- `Duration::as_secs` on a duration given in nanoseconds. -/
def asSecs (d : Nat) : Nat := d / 1000000000

/-- `Duration::subsec_nanos` on a duration given in nanoseconds. -/
def subsecNanos (d : Nat) : Nat := d % 1000000000

/-- `Duration::subsec_micros` on a duration given in nanoseconds. -/
def subsecMicros (d : Nat) : Nat := d % 1000000000 / 1000

/-- `Duration::new sec nsec` as a nanosecond count. -/
def durationNew (sec nsec : Nat) : Nat := sec * 1000000000 + nsec

/-- The portable error kinds this layer distinguishes (`io::ErrorKind`). -/
inductive ErrorKind where
  | invalidInput
  | timedOut
  | interrupted
  | otherKind
deriving DecidableEq, Repr

/-- A portable error value (`io::Error`): either constructed with a kind and a
message (`io::Error::new`) or carrying a raw OS error (`io::Error::last_os_error` /
`from_raw_os_error`). -/
inductive IoError where
  | invalidInput (msg : String)
  | timedOut (msg : String)
  | os (code : Int)
  | other (msg : String)
deriving DecidableEq, Repr

/-- Modelled from the spec: the OS error-kind classification
(`io::Error::kind`, implemented outside this source file) maps the
interrupted errno (`EINTR`) to the distinguished "interrupted" kind and
every other raw code to some non-interrupted kind. -/
def IoError.kind : IoError → ErrorKind
  | .invalidInput _ => .invalidInput
  | .timedOut _ => .timedOut
  | .os c => if c = EINTR then .interrupted else .otherKind
  | .other _ => .otherKind

/-- `io::Error::raw_os_error`: `Some code` only for errors built from a raw OS code. -/
def IoError.rawOsError : IoError → Option Int
  | .os c => some c
  | _ => none

instance instDecEqExcept {ε α : Type} [DecidableEq ε] [DecidableEq α] :
    DecidableEq (Except ε α)
  | .ok x, .ok y =>
    if h : x = y then .isTrue (congrArg Except.ok h)
    else .isFalse (fun hc => h (Except.ok.inj hc))
  | .error x, .error y =>
    if h : x = y then .isTrue (congrArg Except.error h)
    else .isFalse (fun hc => h (Except.error.inj hc))
  | .ok _, .error _ => .isFalse (fun hc => Except.noConfusion hc)
  | .error _, .ok _ => .isFalse (fun hc => Except.noConfusion hc)

/-- The observable syscall events emitted by `Socket::connect_timeout`. -/
inductive Event where
  | setNb (nonblocking : Bool)
  | connectCall
  | check (elapsed : Nat)
  | poll (waitMs : Nat)
deriving DecidableEq, Repr

/-- Whether an event is a blocking-mode toggle (`set_nonblocking`). -/
def Event.isSetNb : Event → Bool
  | .setNb _ => true
  | _ => false

/-- The scripted outcome of one `libc::poll` call: a negative return with the
given last OS error code, a zero return (poll-level timeout), or a positive
return (write-ready). -/
inductive PollOutcome where
  | errOutcome (code : Int)
  | timeoutOutcome
  | readyOutcome
deriving DecidableEq, Repr

/-- One iteration of the connect poll loop as scripted by the environment:
the monotonic elapsed reading (`start.elapsed()`, in nanoseconds) observed
at the top of the iteration, and the poll outcome should a poll be issued. -/
structure Iter where
  elapsed : Nat
  poll : PollOutcome
deriving DecidableEq, Repr

/-- The result of running the connect model: a completed `io::Result<()>`,
or `pending` when the script ran out while the loop was still running. -/
inductive CtResult where
  | done (r : Except IoError Unit)
  | pending
deriving DecidableEq, Repr

/-- Lines 120-129 of `Socket::connect_timeout`: the remaining duration
(nanoseconds) is converted to whole milliseconds with `u64` saturating
arithmetic, bumped to 1 when the conversion yields 0, then clamped to
`c_int::MAX`. -/
def pollWaitMs (remaining : Nat) : Nat :=
  let ms := satAdd64 (satMul64 (asSecs remaining) 1000) (subsecNanos remaining / 1000000)
  let ms2 := if ms = 0 then 1 else ms
  min ms2 cIntMax

/-- Lines 114-152 of `Socket::connect_timeout`: the poll loop. Each
iteration reads the elapsed time, returns a timed-out error when
`elapsed >= timeout`, otherwise polls with the bounded wait and
classifies the poll outcome: a negative return with a non-interrupted
error is a hard failure, an interrupted error or a zero return loops,
and a positive return is success. -/
def connectLoop (t : Nat) : List Iter → List Event × CtResult
  | [] => ([], CtResult.pending)
  | it :: rest =>
    if t ≤ it.elapsed then
      ([Event.check it.elapsed],
        CtResult.done (Except.error (IoError.timedOut "connection timed out")))
    else
      let w := pollWaitMs (t - it.elapsed)
      match it.poll with
      | PollOutcome.errOutcome c =>
        if (IoError.os c).kind ≠ ErrorKind.interrupted then
          ([Event.check it.elapsed, Event.poll w],
            CtResult.done (Except.error (IoError.os c)))
        else
          (Event.check it.elapsed :: Event.poll w :: (connectLoop t rest).1,
            (connectLoop t rest).2)
      | PollOutcome.timeoutOutcome =>
        (Event.check it.elapsed :: Event.poll w :: (connectLoop t rest).1,
          (connectLoop t rest).2)
      | PollOutcome.readyOutcome =>
        ([Event.check it.elapsed, Event.poll w], CtResult.done (Except.ok ()))

/-- The scripted environment for one `Socket::connect_timeout` call:
the results of `set_nonblocking(true)`, of the `connect` syscall
(where an in-progress connect is the raw OS error `EINPROGRESS`),
of `set_nonblocking(false)`, and the scripted poll-loop iterations. -/
structure ConnectScript where
  setNbTrue : Except IoError Unit
  connectRes : Except IoError Unit
  setNbFalse : Except IoError Unit
  iters : List Iter
deriving DecidableEq, Repr

/-- Lines 88-153, `Socket::connect_timeout`: switch to non-blocking,
issue the connect, switch back to blocking, then inspect the connect
result; an immediate success or non-in-progress failure returns at
once; for an in-progress connect, a zero timeout is rejected as
invalid input, and otherwise the poll loop runs. The timeout is a
duration in nanoseconds. -/
def connect_timeout (t : Nat) (s : ConnectScript) : List Event × CtResult :=
  match s.setNbTrue with
  | Except.error e => ([Event.setNb true], CtResult.done (Except.error e))
  | Except.ok _ =>
    let pre : List Event := [Event.setNb true, Event.connectCall, Event.setNb false]
    match s.setNbFalse with
    | Except.error e => (pre, CtResult.done (Except.error e))
    | Except.ok _ =>
      match s.connectRes with
      | Except.ok _ => (pre, CtResult.done (Except.ok ()))
      | Except.error e =>
        if e.rawOsError = some EINPROGRESS then
          if asSecs t = 0 ∧ subsecNanos t = 0 then
            (pre, CtResult.done (Except.error
              (IoError.invalidInput "cannot set a 0 duration timeout")))
          else
            (pre ++ (connectLoop t s.iters).1, (connectLoop t s.iters).2)
        else (pre, CtResult.done (Except.error e))

/-- The OS `timeval` pair submitted to / retrieved from the kernel for
the timeout socket options. Values written by this layer are
non-negative, so both fields are modelled as `Nat`. -/
structure Timeval where
  tv_sec : Nat
  tv_usec : Nat
deriving DecidableEq, Repr

/-- Lines 233-257 of `Socket::set_timeout`: encode an optional duration
(nanoseconds) as a `timeval`. `None` becomes the all-zero interval; a
zero duration is rejected as invalid input; otherwise whole seconds are
clamped to `time_t::MAX`, the sub-second part is truncated to whole
microseconds, and an all-zero result has its microsecond field bumped
to 1. -/
def encodeTimeout : Option Nat → Except IoError Timeval
  | none => Except.ok ⟨0, 0⟩
  | some d =>
    if asSecs d = 0 ∧ subsecNanos d = 0 then
      Except.error (IoError.invalidInput "cannot set a 0 duration timeout")
    else
      let secs := if asSecs d > time_t_MAX then time_t_MAX else asSecs d
      let usec := subsecMicros d
      let usec2 := if secs = 0 ∧ usec = 0 then 1 else usec
      Except.ok ⟨secs, usec2⟩

/-- `Socket::set_timeout` (lines 232-259): on a successful encoding a
single `setsockopt` call submits the encoded `timeval`; on the
invalid-input error no `setsockopt` call is performed. The first
component is the trace of submitted `timeval` values. -/
def set_timeout (dur : Option Nat) : List Timeval × Except IoError Unit :=
  match encodeTimeout dur with
  | Except.error e => ([], Except.error e)
  | Except.ok tv => ([tv], Except.ok ())

/-- `Socket::timeout` (lines 261-270): decode the `timeval` returned by
`getsockopt`; the all-zero interval decodes to `None`, anything else to
`Some (sec seconds + usec * 1000 nanoseconds)`. -/
def timeout (raw : Timeval) : Option Nat :=
  if raw.tv_sec = 0 ∧ raw.tv_usec = 0 then none
  else some (durationNew raw.tv_sec (raw.tv_usec * 1000))

/-- The observable result of `set_timeout` followed by `timeout` on the
same option kind, assuming the kernel stores the submitted `timeval`
faithfully: the decode applied to the encoded value. -/
def roundTripTimeout (dur : Option Nat) : Except IoError (Option Nat) :=
  Except.map timeout (encodeTimeout dur)

/-- The scripted outcome of one raw syscall invocation: a non-negative
return value, or a failure with the given `errno`. -/
inductive Sys where
  | okRet (v : Nat)
  | fail (errno : Int)
deriving DecidableEq, Repr

/-- Modelled from the spec: `cvt` (re-exported from `crate::sys`, outside
this file) translates a single raw syscall return without retrying: a
sentinel/negative return reads the last OS error and maps it to a
portable error, a non-negative return is success. -/
def cvt : Sys → Except IoError Nat
  | .okRet v => Except.ok v
  | .fail c => Except.error (IoError.os c)

/-- Modelled from the spec: `cvt_r` (re-exported from `crate::sys`,
outside this file) wraps the interrupted-retry internally: it reissues
the syscall while the translated error has the interrupted kind and
returns the first non-interrupted outcome. `none` means the script ran
out while still retrying. -/
def cvt_r : List Sys → Option (Except IoError Nat)
  | [] => none
  | s :: rest =>
    match cvt s with
    | Except.ok v => some (Except.ok v)
    | Except.error e =>
      if e.kind = ErrorKind.interrupted then cvt_r rest
      else some (Except.error e)

/-- `Socket::accept` (lines 155-160): the `accept` syscall goes through
the retrying translator `cvt_r`; on success the new descriptor is
marked close-on-exec (its scripted result is `cloexec`) and a socket
wrapping the descriptor is returned. -/
def accept (script : List Sys) (cloexec : Except IoError Unit) :
    Option (Except IoError Nat) :=
  match cvt_r script with
  | none => none
  | some (Except.error e) => some (Except.error e)
  | some (Except.ok fd) =>
    match cloexec with
    | Except.error e => some (Except.error e)
    | Except.ok _ => some (Except.ok fd)

/-- `Socket::recv_with_flags` (lines 166-171): a single `recv` syscall
translated through the non-retrying `cvt`; the return count is passed
through on success. -/
def recv_with_flags (_flags : Int) (s : Sys) : Except IoError Nat :=
  match cvt s with
  | Except.ok ret => Except.ok ret
  | Except.error e => Except.error e

/-- `Socket::read` (lines 173-175): `recv_with_flags` with zero flags. -/
def read (s : Sys) : Except IoError Nat := recv_with_flags 0 s

/-- The environment consulted by `cvt_gai`: the last OS error code at
the time of the call and the resolver's `gai_strerror` message table. -/
structure GaiEnv where
  lastOsError : Int
  gaiStrerror : Int → String

/-- The observable side effects of `cvt_gai`. -/
inductive GaiEvent where
  | resolverWorkaround
deriving DecidableEq, Repr

/-- `cvt_gai` (lines 29-48): code 0 is success; any non-zero code first
triggers the resolver-cache workaround (`on_resolver_failure`); the
designated system-level code `EAI_SYSTEM` returns the last OS error;
every other non-zero code returns a descriptive error carrying the
resolver's detail string. -/
def cvt_gai (env : GaiEnv) (err : Int) : List GaiEvent × Except IoError Unit :=
  if err = 0 then ([], Except.ok ())
  else
    let evs := [GaiEvent.resolverWorkaround]
    if err = EAI_SYSTEM then (evs, Except.error (IoError.os env.lastOsError))
    else
      (evs, Except.error (IoError.other
        ("failed to lookup address information: " ++ env.gaiStrerror err)))

/-! ## Theorems -/

/-- Helper: the encoding of a positive duration. -/
theorem encodeTimeout_pos (d : Nat) (hd : 0 < d) :
    encodeTimeout (some d) =
      Except.ok ⟨min (asSecs d) time_t_MAX, if d < 1000 then 1 else subsecMicros d⟩ := by
  have h1 : ¬ (asSecs d = 0 ∧ subsecNanos d = 0) := by
    unfold asSecs subsecNanos; omega
  have hsecs : (if asSecs d > time_t_MAX then time_t_MAX else asSecs d) =
      min (asSecs d) time_t_MAX := by
    split_ifs with h <;> omega
  have husec : (if min (asSecs d) time_t_MAX = 0 ∧ subsecMicros d = 0
        then 1 else subsecMicros d) =
      (if d < 1000 then 1 else subsecMicros d) := by
    unfold asSecs subsecMicros time_t_MAX
    split_ifs <;> omega
  simp only [encodeTimeout]
  rw [if_neg h1, hsecs, husec]

/-- C9: `cvt_gai` succeeds exactly on resolver code 0; every non-zero code
first triggers the resolver-cache workaround; `EAI_SYSTEM` returns the last
OS error; every other non-zero code returns a descriptive error carrying the
resolver's detail string. -/
theorem cvt_gai_classification (env : GaiEnv) (err : Int) :
    ((cvt_gai env err).2 = Except.ok () ↔ err = 0) ∧
    (err = 0 → cvt_gai env err = ([], Except.ok ())) ∧
    (err ≠ 0 → (cvt_gai env err).1 = [GaiEvent.resolverWorkaround]) ∧
    (err = EAI_SYSTEM →
      (cvt_gai env err).2 = Except.error (IoError.os env.lastOsError)) ∧
    (err ≠ 0 → err ≠ EAI_SYSTEM →
      (cvt_gai env err).2 = Except.error (IoError.other
        ("failed to lookup address information: " ++ env.gaiStrerror err))) := by
  have e0 : err = 0 → cvt_gai env err = ([], Except.ok ()) := fun h => by
    simp [cvt_gai, h]
  have eS : err = EAI_SYSTEM →
      cvt_gai env err =
        ([GaiEvent.resolverWorkaround], Except.error (IoError.os env.lastOsError)) := by
    intro h; subst h; simp [cvt_gai, EAI_SYSTEM]
  have eO : err ≠ 0 → err ≠ EAI_SYSTEM →
      cvt_gai env err =
        ([GaiEvent.resolverWorkaround], Except.error (IoError.other
          ("failed to lookup address information: " ++ env.gaiStrerror err))) := by
    intro h0 hs; simp [cvt_gai, h0, hs]
  refine ⟨?_, e0, ?_, fun hs => by rw [eS hs], fun h0 hs => by rw [eO h0 hs]⟩
  · constructor
    · intro h
      by_contra h0
      by_cases hs : err = EAI_SYSTEM
      · rw [eS hs] at h; simp at h
      · rw [eO h0 hs] at h; simp at h
    · intro h0; rw [e0 h0]
  · intro h0
    by_cases hs : err = EAI_SYSTEM
    · rw [eS hs]
    · rw [eO h0 hs]

theorem cvt_gai_classification_witness :
    (cvt_gai ⟨7, fun _ => "detail"⟩ EAI_SYSTEM).2 = Except.error (IoError.os 7) :=
  (cvt_gai_classification ⟨7, fun _ => "detail"⟩ EAI_SYSTEM).2.2.2.1 rfl

/-- C5: `set_timeout` rejects a zero duration as invalid input with no
`setsockopt` call; a positive duration is encoded by clamping whole seconds
to `time_t::MAX`, truncating the sub-second part to whole microseconds, and
bumping an all-zero result to one microsecond; `None` is encoded as the
all-zero interval. -/
theorem set_timeout_encoding (d : Nat) (hd : 0 < d) :
    set_timeout (some 0) =
      ([], Except.error (IoError.invalidInput "cannot set a 0 duration timeout")) ∧
    set_timeout (some d) =
      ([⟨min (asSecs d) time_t_MAX, if d < 1000 then 1 else subsecMicros d⟩],
        Except.ok ()) ∧
    set_timeout none = ([⟨0, 0⟩], Except.ok ()) := by
  refine ⟨rfl, ?_, rfl⟩
  unfold set_timeout
  rw [encodeTimeout_pos d hd]

theorem set_timeout_encoding_witness :
    set_timeout (some 0) =
      ([], Except.error (IoError.invalidInput "cannot set a 0 duration timeout")) ∧
    set_timeout (some 1500) =
      ([⟨min (asSecs 1500) time_t_MAX, if 1500 < 1000 then 1 else subsecMicros 1500⟩],
        Except.ok ()) ∧
    set_timeout none = ([⟨0, 0⟩], Except.ok ()) :=
  set_timeout_encoding 1500 (by decide)

/-- C4 counterexample: a duration whose whole seconds exceed `time_t::MAX`
does not round-trip to itself truncated at microsecond granularity — its
seconds are clamped to `time_t::MAX` first. -/
theorem timeout_roundtrip_clamped_counterexample :
    roundTripTimeout (some (9223372036854775808 * 1000000000)) =
      Except.ok (some (9223372036854775807 * 1000000000)) ∧
    (9223372036854775807 * 1000000000 : Nat) ≠
      9223372036854775808 * 1000000000 / 1000 * 1000 := by
  constructor
  · decide
  · decide

/-- C4 amended: `setTimeout(handle, k, None)` then `getTimeout` yields
`None`; for positive `d` whose whole seconds fit in `time_t`, the round
trip yields `Some d'` with `d'` equal to `d` truncated to microsecond
granularity, except that a positive sub-microsecond `d` decodes to one
microsecond — never `None` and never zero. (Durations with more whole
seconds than `time_t::MAX` are clamped, see the counterexample.) -/
theorem timeout_roundtrip_truncates (d : Nat) (hd : 0 < d)
    (hsec : asSecs d ≤ time_t_MAX) :
    roundTripTimeout none = Except.ok none ∧
    ∃ r, roundTripTimeout (some d) = Except.ok (some r) ∧ 0 < r ∧
      (1000 ≤ d → r = d / 1000 * 1000) ∧ (d < 1000 → r = 1000) := by
  refine ⟨rfl, ?_⟩
  unfold roundTripTimeout
  rw [encodeTimeout_pos d hd]
  rw [min_eq_left hsec]
  by_cases h3 : d < 1000
  · refine ⟨1000, ?_, by omega, by omega, fun _ => rfl⟩
    rw [if_pos h3]
    have h4 : asSecs d = 0 := by unfold asSecs; omega
    rw [h4]
    rfl
  · refine ⟨d / 1000 * 1000, ?_, by omega, fun _ => rfl, by omega⟩
    rw [if_neg h3]
    simp only [Except.map, timeout, durationNew, asSecs, subsecMicros,
      Except.ok.injEq]
    rw [if_neg (by omega : ¬ (d / 1000000000 = 0 ∧ d % 1000000000 / 1000 = 0))]
    simp only [Option.some.injEq]
    omega

theorem timeout_roundtrip_truncates_witness :
    roundTripTimeout none = Except.ok none ∧
    ∃ r, roundTripTimeout (some 2500) = Except.ok (some r) ∧ 0 < r ∧
      (1000 ≤ 2500 → r = 2500 / 1000 * 1000) ∧ (2500 < 1000 → r = 1000) :=
  timeout_roundtrip_truncates 2500 (by decide) (by decide)

/-- C3 counterexample: under a scripted "interrupted then success"
sequence, the raw scalar read surfaces the interrupted error to its
caller instead of retrying, while `accept` absorbs it. -/
theorem read_surfaces_interrupted_counterexample :
    read (Sys.fail EINTR) = Except.error (IoError.os EINTR) ∧
    (IoError.os EINTR).kind = ErrorKind.interrupted ∧
    accept [Sys.fail EINTR, Sys.okRet 5] (Except.ok ()) = some (Except.ok 5) := by
  decide

/-- C3 amended: `accept` retries an interrupted syscall internally (a
leading interrupted outcome is observably erased), and so does the
underlying `cvt_r`; but the raw scalar read (`recv_with_flags` via plain
`cvt`) surfaces the interrupted error to its caller. -/
theorem accept_retries_read_surfaces (rest : List Sys) (cl : Except IoError Unit) :
    accept (Sys.fail EINTR :: rest) cl = accept rest cl ∧
    cvt_r (Sys.fail EINTR :: rest) = cvt_r rest ∧
    read (Sys.fail EINTR) = Except.error (IoError.os EINTR) := by
  have h : cvt_r (Sys.fail EINTR :: rest) = cvt_r rest := by
    simp [cvt_r, cvt, IoError.kind]
  exact ⟨by simp [accept, h], h, rfl⟩

/-- C1 counterexample: with a zero-duration timeout and an immediately
successful connect, `connect_timeout` returns success (not an
invalid-input error), and the connect syscall is performed. -/
theorem connect_timeout_zero_counterexample :
    (connect_timeout 0 ⟨Except.ok (), Except.ok (), Except.ok (), []⟩).2 =
      CtResult.done (Except.ok ()) ∧
    Event.connectCall ∈ (connect_timeout 0 ⟨Except.ok (), Except.ok (), Except.ok (), []⟩).1 := by
  decide

/-- C1 amended: with a zero-duration timeout, the nonblocking toggles and
the connect syscall are performed first; when the connect reports
in-progress, `connect_timeout` then returns an invalid-input error before
any poll call (the trace contains no poll event), for any scripted poll
iterations (any target behaviour). Zero is never treated as "no
timeout", but an immediate connect success or hard failure is returned
as such (see the counterexample). -/
theorem connect_timeout_zero_inprogress (s : ConnectScript)
    (h1 : s.setNbTrue = Except.ok ()) (h2 : s.setNbFalse = Except.ok ())
    (h3 : s.connectRes = Except.error (IoError.os EINPROGRESS)) :
    connect_timeout 0 s =
      ([Event.setNb true, Event.connectCall, Event.setNb false],
        CtResult.done (Except.error
          (IoError.invalidInput "cannot set a 0 duration timeout"))) := by
  simp [connect_timeout, h1, h2, h3, IoError.rawOsError, asSecs, subsecNanos]

theorem connect_timeout_zero_inprogress_witness :
    connect_timeout 0 ⟨Except.ok (), Except.error (IoError.os EINPROGRESS),
        Except.ok (), [⟨0, PollOutcome.readyOutcome⟩]⟩ =
      ([Event.setNb true, Event.connectCall, Event.setNb false],
        CtResult.done (Except.error
          (IoError.invalidInput "cannot set a 0 duration timeout"))) :=
  connect_timeout_zero_inprogress _ rfl rfl rfl

/-- C2: when the poll loop exits because the elapsed monotonic time has
reached the timeout, it returns a timed-out error and the trace of that
path is the failing deadline check alone — no set-blocking operation is
performed on the timed-out return path. -/
theorem connectLoop_timedout_no_setblocking (t : Nat) (it : Iter)
    (rest : List Iter) (h : t ≤ it.elapsed) :
    connectLoop t (it :: rest) =
      ([Event.check it.elapsed],
        CtResult.done (Except.error (IoError.timedOut "connection timed out"))) ∧
    ∀ ev ∈ (connectLoop t (it :: rest)).1, ev.isSetNb = false := by
  have he : connectLoop t (it :: rest) =
      ([Event.check it.elapsed],
        CtResult.done (Except.error (IoError.timedOut "connection timed out"))) := by
    unfold connectLoop
    rw [if_pos h]
  refine ⟨he, ?_⟩
  rw [he]
  intro ev hev
  simp only [List.mem_singleton] at hev
  rw [hev]
  rfl

theorem connectLoop_timedout_no_setblocking_witness :
    connectLoop 5 [⟨7, PollOutcome.readyOutcome⟩] =
      ([Event.check 7],
        CtResult.done (Except.error (IoError.timedOut "connection timed out"))) ∧
    ∀ ev ∈ (connectLoop 5 [⟨7, PollOutcome.readyOutcome⟩]).1, ev.isSetNb = false :=
  connectLoop_timedout_no_setblocking 5 ⟨7, PollOutcome.readyOutcome⟩ [] (by decide)

/-- Helper: the saturating millisecond conversion, bump and clamp of
lines 120-129 compute exactly `min (max (remaining in whole ms) 1)
c_int::MAX`. -/
theorem pollWaitMs_eq (r : Nat) :
    pollWaitMs r = min (max (r / 1000000) 1) cIntMax := by
  simp only [pollWaitMs, satAdd64, satMul64, asSecs, subsecNanos, u64Max, cIntMax]
  have hr : r / 1000000 = r / 1000000000 * 1000 + r % 1000000000 / 1000000 := by
    omega
  split_ifs <;> omega

/-- C6: in every poll-loop iteration with positive remaining time, the
wait passed to poll is the remaining time converted to whole
milliseconds with saturating arithmetic, bumped to 1 when the
conversion yields 0, then clamped to `c_int::MAX`; it is always at
least 1 and at most `c_int::MAX`, never 0. -/
theorem poll_wait_bounds (t : Nat) (it : Iter) (rest : List Iter)
    (h : it.elapsed < t) :
    (connectLoop t (it :: rest)).1.take 2 =
      [Event.check it.elapsed, Event.poll (pollWaitMs (t - it.elapsed))] ∧
    pollWaitMs (t - it.elapsed) = min (max ((t - it.elapsed) / 1000000) 1) cIntMax ∧
    1 ≤ pollWaitMs (t - it.elapsed) ∧ pollWaitMs (t - it.elapsed) ≤ cIntMax := by
  have h2 : ¬ t ≤ it.elapsed := by omega
  refine ⟨?_, pollWaitMs_eq _, ?_, ?_⟩
  · simp only [connectLoop]
    rw [if_neg h2]
    cases it.poll with
    | errOutcome c => dsimp only; split_ifs <;> rfl
    | timeoutOutcome => rfl
    | readyOutcome => rfl
  · rw [pollWaitMs_eq]; unfold cIntMax; omega
  · rw [pollWaitMs_eq]; unfold cIntMax; omega

theorem poll_wait_bounds_witness :
    (connectLoop 2000000 [⟨0, PollOutcome.timeoutOutcome⟩]).1.take 2 =
      [Event.check 0, Event.poll (pollWaitMs (2000000 - 0))] ∧
    pollWaitMs (2000000 - 0) = min (max ((2000000 - 0) / 1000000) 1) cIntMax ∧
    1 ≤ pollWaitMs (2000000 - 0) ∧ pollWaitMs (2000000 - 0) ≤ cIntMax :=
  poll_wait_bounds 2000000 ⟨0, PollOutcome.timeoutOutcome⟩ [] (by decide)

/-- C7: in the poll loop, a negative poll return whose last OS error is
interrupted continues the loop from the deadline check and that error
never appears in the result; a negative return with any other error is
returned immediately as a hard failure; a zero return loops back to the
deadline check instead of producing a result. -/
theorem poll_loop_classification (t e : Nat) (rest : List Iter) (c : Int)
    (h : e < t) :
    (c = EINTR →
      connectLoop t (⟨e, PollOutcome.errOutcome c⟩ :: rest) =
        (Event.check e :: Event.poll (pollWaitMs (t - e)) :: (connectLoop t rest).1,
          (connectLoop t rest).2)) ∧
    (c ≠ EINTR →
      connectLoop t (⟨e, PollOutcome.errOutcome c⟩ :: rest) =
        ([Event.check e, Event.poll (pollWaitMs (t - e))],
          CtResult.done (Except.error (IoError.os c)))) ∧
    connectLoop t (⟨e, PollOutcome.timeoutOutcome⟩ :: rest) =
      (Event.check e :: Event.poll (pollWaitMs (t - e)) :: (connectLoop t rest).1,
        (connectLoop t rest).2) := by
  have h2 : ¬ t ≤ e := by omega
  refine ⟨?_, ?_, ?_⟩
  · intro hc
    simp only [connectLoop]
    rw [if_neg h2]
    simp [IoError.kind, hc]
  · intro hc
    simp only [connectLoop]
    rw [if_neg h2]
    simp [IoError.kind, hc]
  · simp only [connectLoop]
    rw [if_neg h2]

theorem poll_loop_classification_witness :
    (EINTR = EINTR →
      connectLoop 2000000 (⟨0, PollOutcome.errOutcome EINTR⟩ :: []) =
        (Event.check 0 :: Event.poll (pollWaitMs (2000000 - 0)) ::
            (connectLoop 2000000 []).1,
          (connectLoop 2000000 []).2)) ∧
    (EINTR ≠ EINTR →
      connectLoop 2000000 (⟨0, PollOutcome.errOutcome EINTR⟩ :: []) =
        ([Event.check 0, Event.poll (pollWaitMs (2000000 - 0))],
          CtResult.done (Except.error (IoError.os EINTR)))) ∧
    connectLoop 2000000 (⟨0, PollOutcome.timeoutOutcome⟩ :: []) =
      (Event.check 0 :: Event.poll (pollWaitMs (2000000 - 0)) ::
          (connectLoop 2000000 []).1,
        (connectLoop 2000000 []).2) :=
  poll_loop_classification 2000000 0 [] EINTR (by decide)

/-- Helper: the poll loop never toggles the blocking mode. -/
theorem connectLoop_no_setNb (t : Nat) (iters : List Iter) :
    ∀ ev ∈ (connectLoop t iters).1, ev.isSetNb = false := by
  induction iters with
  | nil => intro ev hev; simp [connectLoop] at hev
  | cons it rest ih =>
    intro ev hev
    simp only [connectLoop] at hev
    by_cases h : t ≤ it.elapsed
    · rw [if_pos h] at hev
      simp only [List.mem_singleton] at hev
      rw [hev]; rfl
    · rw [if_neg h] at hev
      cases hp : it.poll with
      | errOutcome c =>
        rw [hp] at hev
        dsimp only at hev
        by_cases hk : (IoError.os c).kind ≠ ErrorKind.interrupted
        · rw [if_pos hk] at hev
          simp only [List.mem_cons, List.not_mem_nil, or_false] at hev
          rcases hev with rfl | rfl
          · rfl
          · rfl
        · rw [if_neg hk] at hev
          simp only [List.mem_cons] at hev
          rcases hev with rfl | rfl | hev
          · rfl
          · rfl
          · exact ih ev hev
      | timeoutOutcome =>
        rw [hp] at hev
        dsimp only at hev
        simp only [List.mem_cons] at hev
        rcases hev with rfl | rfl | hev
        · rfl
        · rfl
        · exact ih ev hev
      | readyOutcome =>
        rw [hp] at hev
        dsimp only at hev
        simp only [List.mem_cons, List.not_mem_nil, or_false] at hev
        rcases hev with rfl | rfl
        · rfl
        · rfl

/-- C10: whenever `set_nonblocking(true)` succeeds, the trace of
`connect_timeout` begins with the nonblocking toggle, the connect
syscall, and the unconditional switch back to blocking mode — performed
before the connect result is inspected — and no further set-blocking
operation occurs on any path, so every produced result (immediate
success, immediate hard failure, zero-duration invalid input, poll hard
failure, poll-ready success, timed out) sees the handle already
switched back to blocking mode. -/
theorem connect_timeout_restores_blocking (t : Nat) (s : ConnectScript)
    (h1 : s.setNbTrue = Except.ok ()) :
    ∃ tail, (connect_timeout t s).1 =
        Event.setNb true :: Event.connectCall :: Event.setNb false :: tail ∧
      ∀ ev ∈ tail, ev.isSetNb = false := by
  unfold connect_timeout
  rw [h1]
  cases hf : s.setNbFalse with
  | error e => exact ⟨[], rfl, by intro ev hev; simp at hev⟩
  | ok u =>
    cases hc : s.connectRes with
    | ok v => exact ⟨[], rfl, by intro ev hev; simp at hev⟩
    | error e =>
      dsimp only
      by_cases hp : e.rawOsError = some EINPROGRESS
      · rw [if_pos hp]
        by_cases hz : asSecs t = 0 ∧ subsecNanos t = 0
        · rw [if_pos hz]
          exact ⟨[], rfl, by intro ev hev; simp at hev⟩
        · rw [if_neg hz]
          exact ⟨(connectLoop t s.iters).1, rfl, connectLoop_no_setNb t s.iters⟩
      · rw [if_neg hp]
        exact ⟨[], rfl, by intro ev hev; simp at hev⟩

theorem connect_timeout_restores_blocking_witness :
    ∃ tail, (connect_timeout 1 ⟨Except.ok (), Except.ok (), Except.ok (), []⟩).1 =
        Event.setNb true :: Event.connectCall :: Event.setNb false :: tail ∧
      ∀ ev ∈ tail, ev.isSetNb = false :=
  connect_timeout_restores_blocking 1 ⟨Except.ok (), Except.ok (), Except.ok (), []⟩ rfl

/-! ## Clock model for the temporal claim -/

/-- One step of clock validity: if the first scripted reading is still
before the deadline (so a poll with wait `pollWaitMs` milliseconds is
issued), the next scripted reading exceeds it by at most that wait
(converted to nanoseconds). This formalises "a poll call with wait `w`
blocks for at most `w` milliseconds". -/
def stepOk (t : Nat) (a : Iter) : List Iter → Bool
  | [] => true
  | b :: _ =>
    decide (t ≤ a.elapsed) ||
      decide (b.elapsed ≤ a.elapsed + pollWaitMs (t - a.elapsed) * 1000000)

/-- Clock validity of a whole scripted iteration list. -/
def validClock (t : Nat) : List Iter → Bool
  | [] => true
  | a :: rest => stepOk t a rest && validClock t rest

/-- The first monotonic reading of the script is zero: no time passes
between `Instant::now()` and the first deadline check. -/
def startsAtZero : List Iter → Bool
  | [] => true
  | a :: _ => decide (a.elapsed = 0)

/-- Scans an event list and checks that every poll event is immediately
preceded by a deadline-check event whose elapsed reading was strictly
below the timeout; `prev` is the event just before the list. -/
def pollsGuardedAux (t : Nat) (prev : Option Event) : List Event → Bool
  | [] => true
  | ev :: rest =>
    (match ev with
     | Event.poll _ =>
       match prev with
       | some (Event.check e) => decide (e < t)
       | _ => false
     | _ => true) && pollsGuardedAux t (some ev) rest

/-- Every poll event of the trace is immediately preceded by a passing
deadline check. -/
def pollsGuarded (t : Nat) (evs : List Event) : Bool :=
  pollsGuardedAux t none evs

/-- Helper: one poll wait never overshoots the deadline by more than one
millisecond. -/
theorem pollWait_advance_bound (t e : Nat) (h : e < t) :
    e + pollWaitMs (t - e) * 1000000 ≤ t + 1000000 := by
  rw [pollWaitMs_eq]
  unfold cIntMax
  omega

/-- Helper: in every trace the loop produces, each poll event is
immediately preceded by a deadline check that passed. -/
theorem connectLoop_guarded (t : Nat) (iters : List Iter) (prev : Option Event) :
    pollsGuardedAux t prev (connectLoop t iters).1 = true := by
  induction iters generalizing prev with
  | nil => rfl
  | cons it rest ih =>
    simp only [connectLoop]
    by_cases h : t ≤ it.elapsed
    · rw [if_pos h]
      rfl
    · rw [if_neg h]
      have hlt : it.elapsed < t := by omega
      cases hp : it.poll with
      | errOutcome c =>
        dsimp only
        by_cases hk : (IoError.os c).kind ≠ ErrorKind.interrupted
        · rw [if_pos hk]
          simp [pollsGuardedAux, hlt]
        · rw [if_neg hk]
          simp only [pollsGuardedAux, Bool.and_eq_true]
          exact ⟨by simp, by simp [hlt], ih (some (Event.poll (pollWaitMs (t - it.elapsed))))⟩
      | timeoutOutcome =>
        dsimp only
        simp only [pollsGuardedAux, Bool.and_eq_true]
        exact ⟨by simp, by simp [hlt], ih (some (Event.poll (pollWaitMs (t - it.elapsed))))⟩
      | readyOutcome =>
        dsimp only
        simp [pollsGuardedAux, hlt]

/-- Helper: when the loop ends in a timed-out error under a valid clock
script whose head (if it would time out at once) is already within one
poll quantum of the deadline, the final deadline check reads a value
between the timeout and the timeout plus one millisecond. -/
theorem connectLoop_timedout_bound_aux (t : Nat) (iters : List Iter) (msg : String)
    (hv : validClock t iters = true)
    (hhead : ∀ a arest, iters = a :: arest → t ≤ a.elapsed → a.elapsed ≤ t + 1000000)
    (hres : (connectLoop t iters).2 =
      CtResult.done (Except.error (IoError.timedOut msg))) :
    ∃ f, (connectLoop t iters).1.getLast? = some (Event.check f) ∧
      t ≤ f ∧ f ≤ t + 1000000 := by
  induction iters with
  | nil => simp [connectLoop] at hres
  | cons it rest ih =>
    by_cases h : t ≤ it.elapsed
    · refine ⟨it.elapsed, ?_, h, hhead it rest rfl h⟩
      simp only [connectLoop]
      rw [if_pos h]
      rfl
    · have hlt : it.elapsed < t := by omega
      have hv2 : validClock t rest = true := by
        have := hv
        simp only [validClock, Bool.and_eq_true] at this
        exact this.2
      have hstep : ∀ b brest, rest = b :: brest →
          b.elapsed ≤ it.elapsed + pollWaitMs (t - it.elapsed) * 1000000 := by
        intro b brest hb
        have := hv
        simp only [validClock, Bool.and_eq_true] at this
        have hso := this.1
        rw [hb] at hso
        simp only [stepOk, Bool.or_eq_true, decide_eq_true_eq] at hso
        rcases hso with hso | hso
        · omega
        · exact hso
      have hhead2 : ∀ b brest, rest = b :: brest → t ≤ b.elapsed →
          b.elapsed ≤ t + 1000000 := by
        intro b brest hb htb
        have h1 := hstep b brest hb
        have h2 := pollWait_advance_bound t it.elapsed hlt
        omega
      simp only [connectLoop] at hres ⊢
      rw [if_neg h] at hres ⊢
      cases hp : it.poll with
      | errOutcome c =>
        rw [hp] at hres
        dsimp only at hres ⊢
        by_cases hk : (IoError.os c).kind ≠ ErrorKind.interrupted
        · rw [if_pos hk] at hres
          simp at hres
        · rw [if_neg hk] at hres ⊢
          obtain ⟨f, hf1, hf2, hf3⟩ := ih hv2 hhead2 hres
          refine ⟨f, ?_, hf2, hf3⟩
          have hne : (connectLoop t rest).1 ≠ [] := by
            intro hemp
            rw [hemp] at hf1
            simp at hf1
          rw [List.getLast?_cons_cons]
          cases hl : (connectLoop t rest).1 with
          | nil => exact absurd hl hne
          | cons x xs =>
            rw [List.getLast?_cons_cons]
            rw [hl] at hf1
            exact hf1
      | timeoutOutcome =>
        rw [hp] at hres
        dsimp only at hres ⊢
        obtain ⟨f, hf1, hf2, hf3⟩ := ih hv2 hhead2 hres
        refine ⟨f, ?_, hf2, hf3⟩
        have hne : (connectLoop t rest).1 ≠ [] := by
          intro hemp
          rw [hemp] at hf1
          simp at hf1
        rw [List.getLast?_cons_cons]
        cases hl : (connectLoop t rest).1 with
        | nil => exact absurd hl hne
        | cons x xs =>
          rw [List.getLast?_cons_cons]
          rw [hl] at hf1
          exact hf1
      | readyOutcome =>
        rw [hp] at hres
        dsimp only at hres
        simp at hres

/-- C8: over any valid monotonic-clock script (the first reading is 0,
and each poll with wait `w` milliseconds advances the clock by at most
`w` milliseconds) with a positive timeout, if the poll loop returns a
timed-out error then the final deadline check read an elapsed value `f`
with `timeout ≤ f ≤ timeout + 1000000` nanoseconds (one poll quantum):
the error comes no earlier than the requested timeout and no later than
the timeout plus one quantum, timed-out is only returned when
`elapsed ≥ timeout` on the scripted monotonic clock, and a passing
deadline check immediately precedes every poll call of the trace. -/
theorem connect_timeout_deadline_semantics (t : Nat) (iters : List Iter)
    (msg : String) (hz : startsAtZero iters = true) (hv : validClock t iters = true)
    (ht : 0 < t)
    (hres : (connectLoop t iters).2 =
      CtResult.done (Except.error (IoError.timedOut msg))) :
    (∃ f, (connectLoop t iters).1.getLast? = some (Event.check f) ∧
      t ≤ f ∧ f ≤ t + 1000000) ∧
    pollsGuarded t (connectLoop t iters).1 = true := by
  constructor
  · refine connectLoop_timedout_bound_aux t iters msg hv ?_ hres
    intro a arest ha hta
    rw [ha] at hz
    simp only [startsAtZero, decide_eq_true_eq] at hz
    omega
  · exact connectLoop_guarded t iters none

theorem connect_timeout_deadline_semantics_witness :
    (∃ f, (connectLoop 2000000
        [⟨0, PollOutcome.timeoutOutcome⟩, ⟨2000000, PollOutcome.readyOutcome⟩]).1.getLast? =
          some (Event.check f) ∧
      2000000 ≤ f ∧ f ≤ 2000000 + 1000000) ∧
    pollsGuarded 2000000 (connectLoop 2000000
      [⟨0, PollOutcome.timeoutOutcome⟩, ⟨2000000, PollOutcome.readyOutcome⟩]).1 = true :=
  connect_timeout_deadline_semantics 2000000
    [⟨0, PollOutcome.timeoutOutcome⟩, ⟨2000000, PollOutcome.readyOutcome⟩]
    "connection timed out" (by decide) (by decide) (by decide) (by decide)

end SwitchNet
